import Mathlib

/-!
# Verification of `my_cluster_id.py`

A shallow embedding of the one-file program `src/my_cluster_id.py`:

```python
my_uuid = uuid.uuid4()
uuid_bytes = my_uuid.bytes
cluster_id = base64.urlsafe_b64encode(uuid_bytes).rstrip(b'=').decode('ascii')
print(cluster_id)
```

Bytes are modelled as `Nat` with the invariant `b < 256` carried as a
hypothesis.  `base64.urlsafe_b64encode` is embedded as `b64encode`
(standard Base64 over the URL-safe alphabet, `=`-padded), `rstrip(b'=')`
as `rstripEq`, and the whole line 19 as `cluster_id`.  The generator
`uuid.uuid4()` (standard library, not part of the repository) is modelled
from the spec as `uuid4_bytes` over the 16 random bytes it draws, and the
sequential script with its exception propagation as `runProgram`.
-/

namespace PulseHub

/-- The URL-safe Base64 alphabet `A–Z a–z 0–9 - _`, in symbol order:
symbol value `n` encodes as `b64alphabet[n]`. -/
def b64alphabet : List Char :=
  ['A', 'B', 'C', 'D', 'E', 'F', 'G', 'H', 'I', 'J', 'K', 'L', 'M',
   'N', 'O', 'P', 'Q', 'R', 'S', 'T', 'U', 'V', 'W', 'X', 'Y', 'Z',
   'a', 'b', 'c', 'd', 'e', 'f', 'g', 'h', 'i', 'j', 'k', 'l', 'm',
   'n', 'o', 'p', 'q', 'r', 's', 't', 'u', 'v', 'w', 'x', 'y', 'z',
   '0', '1', '2', '3', '4', '5', '6', '7', '8', '9', '-', '_']

/-- The character of a six-bit value (the default is never reached:
every sextet produced by `b64encode` is `< 64`). -/
def b64char (n : Nat) : Char := b64alphabet.getD n 'A'

/-- The six-bit value of an alphabet character (left inverse of
`b64char` on values `< 64`). -/
def b64inv (c : Char) : Nat := b64alphabet.findIdx (fun x => x == c)

/-- `base64.urlsafe_b64encode`: standard Base64 over the URL-safe
alphabet, processing three input bytes into four output characters, the
final one- or two-byte group padded with `=` to a four-character block. -/
def b64encode : List Nat → List Char
  | [] => []
  | [b1] => [b64char (b1 / 4), b64char (b1 % 4 * 16), '=', '=']
  | [b1, b2] => [b64char (b1 / 4), b64char (b1 % 4 * 16 + b2 / 16),
                 b64char (b2 % 16 * 4), '=']
  | b1 :: b2 :: b3 :: rest =>
      b64char (b1 / 4) :: b64char (b1 % 4 * 16 + b2 / 16) ::
      b64char (b2 % 16 * 4 + b3 / 64) :: b64char (b3 % 64) :: b64encode rest

/-- The characters of `b64encode` before the trailing `=` padding
(helper for reasoning about `rstrip`). -/
def b64body : List Nat → List Char
  | [] => []
  | [b1] => [b64char (b1 / 4), b64char (b1 % 4 * 16)]
  | [b1, b2] => [b64char (b1 / 4), b64char (b1 % 4 * 16 + b2 / 16),
                 b64char (b2 % 16 * 4)]
  | b1 :: b2 :: b3 :: rest =>
      b64char (b1 / 4) :: b64char (b1 % 4 * 16 + b2 / 16) ::
      b64char (b2 % 16 * 4 + b3 / 64) :: b64char (b3 % 64) :: b64body rest

/-- `bytes.rstrip(b'=')`: remove every trailing `=`. -/
def rstripEq (l : List Char) : List Char :=
  (l.reverse.dropWhile (fun c => c = '=')).reverse

/-- Line 19 of the source: `base64.urlsafe_b64encode(uuid_bytes).rstrip(b'=').decode('ascii')`.
The `.decode('ascii')` is the identity on the characters (Base64 output
is ASCII), so the embedding builds the string directly. -/
def cluster_id (bs : List Nat) : String :=
  String.mk (rstripEq (b64encode bs))

/-- The matching Base64 decoder (`base64.urlsafe_b64decode` on
well-formed padded input): four characters back to three bytes, a block
ending in `=` or `==` back to two bytes or one. -/
def b64decode : List Char → List Nat
  | c1 :: c2 :: c3 :: c4 :: rest =>
      if c3 = '=' then [b64inv c1 * 4 + b64inv c2 / 16]
      else if c4 = '=' then
        [b64inv c1 * 4 + b64inv c2 / 16, b64inv c2 % 16 * 16 + b64inv c3 / 4]
      else
        (b64inv c1 * 4 + b64inv c2 / 16) :: (b64inv c2 % 16 * 16 + b64inv c3 / 4) ::
        (b64inv c3 % 4 * 64 + b64inv c4) :: b64decode rest
  | _ => []

/-- Failure of the randomness source behind `uuid.uuid4()` (spec §4.1). -/
inductive GenerationError
  | randomnessUnavailable

/-- Modelled from the spec: the Identifier Generator.  `uuid.uuid4()`
(Python standard library, not under `src/`) draws 16 random bytes and
forces the version-4 marker bits: the high nibble of byte 6 becomes `4`
(`b & 0x0f | 0x40`) and the top two bits of byte 8 become `10`
(`b & 0x3f | 0x80`); `.bytes` returns the resulting 16 bytes. -/
def uuid4_bytes (r : List Nat) : List Nat :=
  (r.set 6 (r.getD 6 0 % 16 + 64)).set 8 (r.getD 8 0 % 64 + 128)

/-- Line 21 of the source: `print(cluster_id)` writes the string
followed by a single newline. -/
def emit (s : String) : String := s ++ "\n"

/-- The whole script as a function of the randomness outcome: on
success the four lines run in sequence and the encoded identifier is
printed; a `GenerationError` raised at line 5 propagates (there is no
handler), so nothing is ever written.  The result is the exit outcome
paired with everything written to standard output. -/
def runProgram : Except GenerationError (List Nat) → Except GenerationError Unit × String
  | Except.error e => (Except.error e, "")
  | Except.ok r => (Except.ok (), emit (cluster_id (uuid4_bytes r)))

/-- The defensive length check described by the spec (§4.2). -/
inductive EncodingError
  | lengthMismatch

/-- Modelled from the spec: the Encoder as §4.2 describes it, failing
with `EncodingError` whenever the input is not exactly 16 bytes.  The
source has no such check; this definition exists only to be compared
with `cluster_id`. -/
def cluster_id_spec (bs : List Nat) : Except EncodingError String :=
  if bs.length = 16 then Except.ok (cluster_id bs)
  else Except.error EncodingError.lengthMismatch

/-! ## Basic facts about the alphabet -/

/-- Out of range, `b64char` falls back to the default `'A'`. -/
lemma b64char_of_ge (n : Nat) (h : 64 ≤ n) : b64char n = 'A' := by
  have hlen : b64alphabet.length ≤ n := by
    have h64 : b64alphabet.length = 64 := by decide
    omega
  rw [b64char]
  exact List.getD_eq_default _ _ hlen

/-- No alphabet character is the padding character. -/
lemma b64char_ne_pad (n : Nat) : b64char n ≠ '=' := by
  by_cases h : n < 64
  · revert h; revert n; decide
  · rw [b64char_of_ge n (by omega)]; decide

/-- Every `b64char` value is in the alphabet. -/
lemma b64char_mem (n : Nat) : b64char n ∈ b64alphabet := by
  by_cases h : n < 64
  · revert h; revert n; decide
  · rw [b64char_of_ge n (by omega)]; decide

/-- `b64inv` inverts `b64char` on six-bit values. -/
lemma b64inv_b64char (n : Nat) (h : n < 64) : b64inv (b64char n) = n := by
  revert h; revert n; decide

/-- The padding character is outside the alphabet. -/
lemma pad_not_mem_alphabet : '=' ∉ b64alphabet := by decide

/-! ## Structure of the encoding -/

/-- The encoding is its unpadded body followed by `(3 - len mod 3) mod 3`
padding characters. -/
lemma b64encode_eq_body_pad (bs : List Nat) :
    b64encode bs = b64body bs ++ List.replicate ((3 - bs.length % 3) % 3) '=' := by
  induction bs using b64encode.induct with
  | case1 => rfl
  | case2 b1 => rfl
  | case3 b1 b2 => rfl
  | case4 b1 b2 b3 rest ih =>
      have h3 : (3 - (rest.length + 1 + 1 + 1) % 3) % 3 = (3 - rest.length % 3) % 3 := by
        omega
      simp only [b64encode, b64body, ih, List.cons_append, List.length_cons, h3]

/-- Length of the unpadded body. -/
lemma b64body_length (bs : List Nat) :
    (b64body bs).length = (4 * bs.length + 2) / 3 := by
  induction bs using b64encode.induct with
  | case1 => rfl
  | case2 b1 => simp [b64body]
  | case3 b1 b2 => simp [b64body]
  | case4 b1 b2 b3 rest ih =>
      simp only [b64body, List.length_cons, ih]
      omega

/-- Every character of the body is an alphabet character. -/
lemma b64body_mem_alphabet (bs : List Nat) :
    ∀ c ∈ b64body bs, c ∈ b64alphabet := by
  induction bs using b64encode.induct with
  | case1 => intro c hc; simp [b64body] at hc
  | case2 b1 =>
      intro c hc
      simp only [b64body, List.mem_cons, List.not_mem_nil, or_false] at hc
      rcases hc with rfl | rfl <;> exact b64char_mem _
  | case3 b1 b2 =>
      intro c hc
      simp only [b64body, List.mem_cons, List.not_mem_nil, or_false] at hc
      rcases hc with rfl | rfl | rfl <;> exact b64char_mem _
  | case4 b1 b2 b3 rest ih =>
      intro c hc
      simp only [b64body, List.mem_cons] at hc
      rcases hc with rfl | rfl | rfl | rfl | hc
      · exact b64char_mem _
      · exact b64char_mem _
      · exact b64char_mem _
      · exact b64char_mem _
      · exact ih c hc

/-- No character of the body is the padding character. -/
lemma b64body_ne_pad (bs : List Nat) : ∀ c ∈ b64body bs, c ≠ '=' := by
  intro c hc hceq
  exact pad_not_mem_alphabet (hceq ▸ b64body_mem_alphabet bs c hc)

/-- `dropWhile` on padding swallows a leading run of `=`. -/
lemma dropWhile_pad_append (k : Nat) (xs : List Char) :
    List.dropWhile (fun c => c = '=') (List.replicate k '=' ++ xs)
      = List.dropWhile (fun c => c = '=') xs := by
  induction k with
  | zero => simp
  | succ k ih => simp [List.replicate_succ, List.dropWhile_cons, ih]

/-- `rstrip(b'=')` removes exactly the trailing padding run when the
part before it is padding-free. -/
lemma rstripEq_append_replicate (l : List Char) (k : Nat) (h : ∀ c ∈ l, c ≠ '=') :
    rstripEq (l ++ List.replicate k '=') = l := by
  unfold rstripEq
  rw [List.reverse_append, List.reverse_replicate, dropWhile_pad_append]
  have hself : l.reverse.dropWhile (fun c => c = '=') = l.reverse := by
    cases hrev : l.reverse with
    | nil => simp
    | cons a t =>
        have ha : a ∈ l := by
          have hm : a ∈ l.reverse := by rw [hrev]; exact List.mem_cons_self a t
          simpa using hm
        rw [List.dropWhile_cons]
        simp [h a ha]
  rw [hself, List.reverse_reverse]

/-- Line 19 produces exactly the unpadded body. -/
lemma cluster_id_eq_body (bs : List Nat) :
    cluster_id bs = String.mk (b64body bs) := by
  unfold cluster_id
  rw [b64encode_eq_body_pad, rstripEq_append_replicate _ _ (b64body_ne_pad bs)]

/-- For inputs of length `≡ 1 (mod 3)` — in particular 16 — re-adding
two `=` to the body reproduces the full padded encoding. -/
lemma body_pad_two (bs : List Nat) (h : bs.length % 3 = 1) :
    b64body bs ++ ['=', '='] = b64encode bs := by
  rw [b64encode_eq_body_pad]
  have h2 : (3 - bs.length % 3) % 3 = 2 := by omega
  rw [h2]
  rfl

/-- Decoding inverts encoding on byte inputs. -/
lemma b64decode_b64encode (bs : List Nat) (hb : ∀ b ∈ bs, b < 256) :
    b64decode (b64encode bs) = bs := by
  induction bs using b64encode.induct with
  | case1 => rfl
  | case2 b1 =>
      have hb1 : b1 < 256 := hb b1 (by simp)
      have e1 : b1 / 4 * 4 + b1 % 4 * 16 / 16 = b1 := by omega
      simp only [b64encode, b64decode]
      rw [if_pos trivial, b64inv_b64char _ (by omega), b64inv_b64char _ (by omega), e1]
  | case3 b1 b2 =>
      have hb1 : b1 < 256 := hb b1 (by simp)
      have hb2 : b2 < 256 := hb b2 (by simp)
      have e1 : b1 / 4 * 4 + (b1 % 4 * 16 + b2 / 16) / 16 = b1 := by omega
      have e2 : (b1 % 4 * 16 + b2 / 16) % 16 * 16 + b2 % 16 * 4 / 4 = b2 := by omega
      simp only [b64encode, b64decode]
      rw [if_pos trivial, b64inv_b64char _ (by omega), b64inv_b64char _ (by omega),
          b64inv_b64char _ (by omega), e1, e2, if_neg (b64char_ne_pad (b2 % 16 * 4))]
  | case4 b1 b2 b3 rest ih =>
      have hb1 : b1 < 256 := hb b1 (by simp)
      have hb2 : b2 < 256 := hb b2 (by simp)
      have hb3 : b3 < 256 := hb b3 (by simp)
      have hbr : ∀ b ∈ rest, b < 256 := fun b h => hb b (by simp [h])
      have e1 : b1 / 4 * 4 + (b1 % 4 * 16 + b2 / 16) / 16 = b1 := by omega
      have e2 : (b1 % 4 * 16 + b2 / 16) % 16 * 16 + (b2 % 16 * 4 + b3 / 64) / 4 = b2 := by
        omega
      have e3 : (b2 % 16 * 4 + b3 / 64) % 4 * 64 + b3 % 64 = b3 := by omega
      simp only [b64encode, b64decode]
      rw [if_neg (b64char_ne_pad (b2 % 16 * 4 + b3 / 64)),
          if_neg (b64char_ne_pad (b3 % 64)),
          b64inv_b64char _ (by omega), b64inv_b64char _ (by omega),
          b64inv_b64char _ (by omega), b64inv_b64char _ (by omega),
          ih hbr, e1, e2, e3]

/-! ## The claims -/

/-- C1 (counterexample): the Encoder of the source does not reject
inputs whose length is not 16 bytes.  On the 17-byte all-zero input the
spec-modelled encoder fails with `EncodingError`, but line 19 of the
source happily produces the 23-character encoded string. -/
theorem c1_counterexample :
    cluster_id_spec (List.replicate 17 (0 : Nat)) =
      Except.error EncodingError.lengthMismatch ∧
    cluster_id (List.replicate 17 (0 : Nat)) = "AAAAAAAAAAAAAAAAAAAAAAA" := by
  constructor
  · rfl
  · decide

/-- C1 (amended): the Encoder never fails — there is no length check
and no `EncodingError` in the source; for an input of any length `n` it
produces the padding-stripped Base64 string, of length `(4n + 2) / 3`
(22 exactly when `n = 16`). -/
theorem c1_amended_encoder_total (bs : List Nat) :
    (cluster_id bs).length = (4 * bs.length + 2) / 3 := by
  rw [cluster_id_eq_body]
  exact b64body_length bs

/-- C2: for every 16-byte input the encoded output has length exactly
22 and contains no `=` character. -/
theorem c2_length_22_no_pad (bs : List Nat) (h : bs.length = 16)
    (hb : ∀ b ∈ bs, b < 256) :
    (cluster_id bs).length = 22 ∧ '=' ∉ (cluster_id bs).data := by
  constructor
  · rw [cluster_id_eq_body]
    show (b64body bs).length = 22
    rw [b64body_length, h]
  · rw [cluster_id_eq_body]
    intro hc
    exact pad_not_mem_alphabet (b64body_mem_alphabet bs '=' hc)

/-- Witness for C2 at the all-zero 16-byte input. -/
theorem c2_length_22_no_pad_witness :
    (List.replicate 16 (0 : Nat)).length = 16 ∧
    (∀ b ∈ List.replicate 16 (0 : Nat), b < 256) ∧
    ((cluster_id (List.replicate 16 (0 : Nat))).length = 22 ∧
      '=' ∉ (cluster_id (List.replicate 16 (0 : Nat))).data) :=
  ⟨by decide, by decide, c2_length_22_no_pad _ (by decide) (by decide)⟩

/-- C3: re-adding the two stripped `=` characters and decoding with the
URL-safe Base64 variant reproduces the original 16 bytes. -/
theorem c3_roundtrip (bs : List Nat) (h : bs.length = 16)
    (hb : ∀ b ∈ bs, b < 256) :
    b64decode ((cluster_id bs).data ++ ['=', '=']) = bs := by
  rw [cluster_id_eq_body]
  show b64decode (b64body bs ++ ['=', '=']) = bs
  rw [body_pad_two bs (by omega), b64decode_b64encode bs hb]

/-- Witness for C3 at the all-zero 16-byte input. -/
theorem c3_roundtrip_witness :
    (List.replicate 16 (0 : Nat)).length = 16 ∧
    (∀ b ∈ List.replicate 16 (0 : Nat), b < 256) ∧
    b64decode ((cluster_id (List.replicate 16 (0 : Nat))).data ++ ['=', '=']) =
      List.replicate 16 (0 : Nat) :=
  ⟨by decide, by decide, c3_roundtrip _ (by decide) (by decide)⟩

/-- C4: for every outcome of the randomness source (16 random bytes),
the generated Identifier is exactly 16 bytes, its version field (high
nibble of byte 6) is 4, the top two bits of byte 8 are `10` (value 2),
and every entry is still a byte. -/
theorem c4_generator_layout (r : List Nat) (h : r.length = 16)
    (hb : ∀ b ∈ r, b < 256) :
    (uuid4_bytes r).length = 16 ∧
    (uuid4_bytes r).getD 6 0 / 16 = 4 ∧
    (uuid4_bytes r).getD 8 0 / 64 = 2 ∧
    ∀ b ∈ uuid4_bytes r, b < 256 := by
  refine ⟨?_, ?_, ?_, ?_⟩
  · simp [uuid4_bytes, List.length_set, h]
  · have h6 : (uuid4_bytes r).getD 6 0 = r.getD 6 0 % 16 + 64 := by
      unfold uuid4_bytes
      rw [List.getD_eq_getElem?_getD, List.getElem?_set_ne (by omega),
          List.getElem?_set_self (by omega)]
      rfl
    rw [h6]; omega
  · have h8 : (uuid4_bytes r).getD 8 0 = r.getD 8 0 % 64 + 128 := by
      unfold uuid4_bytes
      rw [List.getD_eq_getElem?_getD,
          List.getElem?_set_self (by rw [List.length_set]; omega)]
      rfl
    rw [h8]; omega
  · intro b hbmem
    rcases List.mem_or_eq_of_mem_set hbmem with hbmem | rfl
    · rcases List.mem_or_eq_of_mem_set hbmem with hbmem | rfl
      · exact hb b hbmem
      · omega
    · omega

/-- Witness for C4 at the all-zero randomness outcome. -/
theorem c4_generator_layout_witness :
    (List.replicate 16 (0 : Nat)).length = 16 ∧
    (∀ b ∈ List.replicate 16 (0 : Nat), b < 256) ∧
    ((uuid4_bytes (List.replicate 16 (0 : Nat))).length = 16 ∧
      (uuid4_bytes (List.replicate 16 (0 : Nat))).getD 6 0 / 16 = 4 ∧
      (uuid4_bytes (List.replicate 16 (0 : Nat))).getD 8 0 / 64 = 2 ∧
      ∀ b ∈ uuid4_bytes (List.replicate 16 (0 : Nat)), b < 256) :=
  ⟨by decide, by decide, c4_generator_layout _ (by decide) (by decide)⟩

/-- C5 (counterexample): the Base64 encoding of a 16-byte input before
padding is stripped has 24 characters, not 22 as claimed — here at the
all-zero input. -/
theorem c5_counterexample :
    (b64encode (List.replicate 16 (0 : Nat))).length ≠ 22 := by decide

/-- C5 (amended): for every 16-byte input the encoding before stripping
has 24 characters of which exactly the last two are `=` padding (the
body is padding-free), and the final stripped result has exactly 22
characters. -/
theorem c5_amended_prestrip_24 (bs : List Nat) (h : bs.length = 16)
    (hb : ∀ b ∈ bs, b < 256) :
    (b64encode bs).length = 24 ∧
    b64encode bs = b64body bs ++ ['=', '='] ∧
    (∀ c ∈ b64body bs, c ≠ '=') ∧
    (cluster_id bs).length = 22 := by
  have hpad := body_pad_two bs (by omega)
  refine ⟨?_, hpad.symm, b64body_ne_pad bs, ?_⟩
  · rw [← hpad, List.length_append, b64body_length, h]
    decide
  · rw [cluster_id_eq_body]
    show (b64body bs).length = 22
    rw [b64body_length, h]

/-- Witness for C5 (amended) at the all-zero 16-byte input. -/
theorem c5_amended_prestrip_24_witness :
    (List.replicate 16 (0 : Nat)).length = 16 ∧
    (∀ b ∈ List.replicate 16 (0 : Nat), b < 256) ∧
    ((b64encode (List.replicate 16 (0 : Nat))).length = 24 ∧
      b64encode (List.replicate 16 (0 : Nat)) =
        b64body (List.replicate 16 (0 : Nat)) ++ ['=', '='] ∧
      (∀ c ∈ b64body (List.replicate 16 (0 : Nat)), c ≠ '=') ∧
      (cluster_id (List.replicate 16 (0 : Nat))).length = 22) :=
  ⟨by decide, by decide, c5_amended_prestrip_24 _ (by decide) (by decide)⟩

/-- C6: `print` writes exactly the encoded string followed by a single
newline character and nothing else. -/
theorem c6_emit_exact (s : String) : (emit s).data = s.data ++ ['\n'] := by
  show (s ++ "\n").data = s.data ++ ['\n']
  rw [String.data_append]

/-- C7: every character of the encoded output of a 16-byte input is in
the URL-safe Base64 alphabet; in particular none is `+`, `/` or `=`. -/
theorem c7_alphabet_only (bs : List Nat) (h : bs.length = 16)
    (hb : ∀ b ∈ bs, b < 256) :
    ∀ c ∈ (cluster_id bs).data,
      c ∈ b64alphabet ∧ c ≠ '+' ∧ c ≠ '/' ∧ c ≠ '=' := by
  intro c hc
  rw [cluster_id_eq_body] at hc
  have hmem : c ∈ b64body bs := hc
  have halpha := b64body_mem_alphabet bs c hmem
  refine ⟨halpha, ?_, ?_, ?_⟩
  · intro heq; subst heq; exact absurd halpha (by decide)
  · intro heq; subst heq; exact absurd halpha (by decide)
  · intro heq; subst heq; exact absurd halpha (by decide)

/-- Witness for C7 at the all-zero 16-byte input. -/
theorem c7_alphabet_only_witness :
    (List.replicate 16 (0 : Nat)).length = 16 ∧
    (∀ b ∈ List.replicate 16 (0 : Nat), b < 256) ∧
    ∀ c ∈ (cluster_id (List.replicate 16 (0 : Nat))).data,
      c ∈ b64alphabet ∧ c ≠ '+' ∧ c ≠ '/' ∧ c ≠ '=' :=
  ⟨by decide, by decide, c7_alphabet_only _ (by decide) (by decide)⟩

/-- C8: the all-zero 16-byte input encodes to 22 `A` characters. -/
theorem c8_zero_bytes :
    cluster_id (List.replicate 16 (0 : Nat)) = "AAAAAAAAAAAAAAAAAAAAAA" := by
  decide

/-- C9: when the Generator fails, nothing is written to standard output
and the run terminates with the generation error. -/
theorem c9_failure_silent (e : GenerationError) :
    (runProgram (Except.error e)).2 = "" ∧
    (runProgram (Except.error e)).1 = Except.error e :=
  ⟨rfl, rfl⟩

/-- C10: the Encoder is injective on 16-byte inputs — equal encoded
strings force equal inputs. -/
theorem c10_injective (bs1 bs2 : List Nat) (h1 : bs1.length = 16)
    (h2 : bs2.length = 16) (hb1 : ∀ b ∈ bs1, b < 256)
    (hb2 : ∀ b ∈ bs2, b < 256) (heq : cluster_id bs1 = cluster_id bs2) :
    bs1 = bs2 := by
  have hbody : b64body bs1 = b64body bs2 := by
    have e1 := cluster_id_eq_body bs1
    have e2 := cluster_id_eq_body bs2
    rw [e1, e2] at heq
    exact congrArg String.data heq
  have henc : b64encode bs1 = b64encode bs2 := by
    rw [← body_pad_two bs1 (by omega), ← body_pad_two bs2 (by omega), hbody]
  calc bs1 = b64decode (b64encode bs1) := (b64decode_b64encode bs1 hb1).symm
    _ = b64decode (b64encode bs2) := by rw [henc]
    _ = bs2 := b64decode_b64encode bs2 hb2

/-- Witness for C10 at a pair of equal all-zero inputs. -/
theorem c10_injective_witness :
    (List.replicate 16 (0 : Nat)).length = 16 ∧
    cluster_id (List.replicate 16 (0 : Nat)) =
      cluster_id (List.replicate 16 (0 : Nat)) ∧
    List.replicate 16 (0 : Nat) = List.replicate 16 (0 : Nat) :=
  ⟨by decide, rfl,
    c10_injective _ _ (by decide) (by decide) (by decide) (by decide) rfl⟩

end PulseHub
